import Mathlib

/-!
# FamilyList real-time event distribution and notification batching

A shallow embedding of the repository's core subsystem:

* `backend/app/services/notification_queue.py` — the `NotificationQueue`
  batcher (`queue_event`, `_add_to_batch`, `_flush_batch`,
  `_format_notification`) with its timer bookkeeping;
* `backend/app/services/push_service.py` — `is_quiet_hours` and the
  notification-preference record consulted at flush time;
* `backend/app/services/event_broadcaster.py` — the `EventBroadcaster`
  pub/sub registry (`subscribe` registration/cleanup, `publish`,
  `get_subscriber_count`).

Conventions of the embedding:

* Wall-clock instants and durations (Python floats of seconds) are modelled
  as `Int` seconds; every constant involved (30.0, 10.0, 120.0) is integral.
* Python `str` is `String`; Python's lexicographic string comparison
  (`<=` on code points, used by `is_quiet_hours`) is embedded as `strLe`
  on the underlying code-point lists, because the kernel cannot evaluate
  `String.ltb`.
* `x or None`-style truthiness on optional strings is `optStrTruthy`.
* `asyncio.Task` timers become explicit `Timer` records carried in the
  queue state: creating a task appends a live timer, `.cancel()` removes
  it.  Firing, extension and force-flush are state transitions.
* Fallible externals (database preference lookup, web-push delivery) are
  supplied as `Except Unit _` oracles in a `FlushEnv`; the `try/except`
  in `_flush_batch` corresponds to `flushBatch` being total and mapping
  oracle errors to a `FlushOutcome.failed` result.
-/

namespace FamilyList

/-- Python lexicographic `<=` on lists of code points. -/
def charListLe : List Char → List Char → Bool
  | [], _ => true
  | _ :: _, [] => false
  | c :: cs, d :: ds =>
      if c.toNat < d.toNat then true
      else if d.toNat < c.toNat then false
      else charListLe cs ds

/-- Python string `<=` (lexicographic by code point). -/
def strLe (a b : String) : Bool := charListLe a.data b.data

/-- Python truthiness of an optional string: `None` and `""` are falsy. -/
def optStrTruthy : Option String → Bool
  | none => false
  | some s => !s.isEmpty

/-! ## Batching configuration (notification_queue.py lines 24–28) -/

/-- seconds before first flush -/
def INITIAL_DELAY : Int := 30

/-- seconds to extend per additional event -/
def EXTEND_DELAY : Int := 10

/-- maximum total delay (2 minutes) -/
def MAX_DELAY : Int := 120

/-- force flush after this many events -/
def MAX_EVENTS : Nat := 15

/-! ## Data model -/

/-- The `PendingEvent` dataclass: a single pending notification event. -/
structure PendingEvent where
  event_type : String
  item_name : Option String
  actor_user_id : String
  actor_name : String
  timestamp : Int
  deriving Repr, DecidableEq

/-- The `BatchState` dataclass: state for a notification batch.  The
`timer_task : asyncio.Task | None` field is modelled as the identifier of
the live timer owned by the batch (if any). -/
structure BatchState where
  list_id : String
  list_name : String
  events : List PendingEvent
  timer_task : Option Nat
  started_at : Int
  deriving Repr, DecidableEq

/-! ## `_format_notification` (notification_queue.py lines 212–281)

The Python function builds `by_actor : dict[str, dict[str, list[str]]]`
(insertion-ordered) and then renders each actor's buckets.  We split the
body of the function into the bucket record, the grouping fold and one
renderer per bucket, exactly mirroring the successive `if` blocks. -/

/-- One actor's buckets: the inner `dict[str, list[str]]` with its five
fixed keys `added/checked/unchecked/deleted/updated`. -/
structure ActorActions where
  added : List String
  checked : List String
  unchecked : List String
  deleted : List String
  updated : List String
  deriving Repr, DecidableEq

/-- The freshly inserted inner dict (all five buckets empty). -/
def ActorActions.empty : ActorActions :=
  ⟨[], [], [], [], []⟩

/-- The expression `event.item_name or "item"` (line 234): Python's `or`
falls through to `"item"` on both `None` and the falsy empty string. -/
def orItem : Option String → String
  | none => "item"
  | some s => if s.isEmpty then "item" else s

/-- The event-classification chain (lines 234–244): append
`event.item_name or "item"` to the bucket selected by `event_type`;
unrecognised types fall through to no bucket. -/
def ActorActions.addEvent (a : ActorActions) (e : PendingEvent) : ActorActions :=
  let item := orItem e.item_name
  if e.event_type = "item_created" then { a with added := a.added ++ [item] }
  else if e.event_type = "item_checked" then { a with checked := a.checked ++ [item] }
  else if e.event_type = "item_unchecked" then { a with unchecked := a.unchecked ++ [item] }
  else if e.event_type = "item_deleted" then { a with deleted := a.deleted ++ [item] }
  else if e.event_type = "item_updated" ∨ e.event_type = "items_cleared"
       ∨ e.event_type = "items_restored" then { a with updated := a.updated ++ [item] }
  else a

/-- The grouping loop (lines 223–244): an insertion-ordered association
list standing for the Python dict `by_actor`. -/
def groupByActor (events : List PendingEvent) : List (String × ActorActions) :=
  events.foldl
    (fun acc e =>
      if acc.any (fun p => p.1 = e.actor_name) then
        acc.map (fun p => if p.1 = e.actor_name then (p.1, p.2.addEvent e) else p)
      else
        acc ++ [(e.actor_name, ActorActions.empty.addEvent e)])
    []

/-- Rendering of the `added` bucket (lines 251–258): inline one name,
comma-join 2–3 names, count 4+. -/
def addedPart : List String → List String
  | [] => []
  | [x] => ["added " ++ x]
  | xs =>
      if xs.length ≤ 3 then ["added " ++ String.intercalate ", " xs]
      else ["added " ++ toString xs.length ++ " items"]

/-- Rendering of the `checked` bucket (lines 260–265): inline one name,
count 2+. -/
def checkedPart : List String → List String
  | [] => []
  | [x] => ["checked off " ++ x]
  | xs => ["checked off " ++ toString xs.length ++ " items"]

/-- Rendering of the `unchecked` bucket (lines 267–269): always a count,
with plural `s` exactly when the count exceeds 1. -/
def uncheckedPart : List String → List String
  | [] => []
  | xs =>
      ["unchecked " ++ toString xs.length ++ " item"
        ++ (if xs.length > 1 then "s" else "")]

/-- Rendering of the `deleted` bucket (lines 271–273): always a count,
with plural `s` exactly when the count exceeds 1. -/
def deletedPart : List String → List String
  | [] => []
  | xs =>
      ["removed " ++ toString xs.length ++ " item"
        ++ (if xs.length > 1 then "s" else "")]

/-- One actor's contribution to `parts` (lines 248–276): the four rendered
buckets joined by `" and "` after the actor's name; an actor all of whose
rendered buckets are empty contributes nothing.  The `updated` bucket has
no rendering block in the source and so never contributes. -/
def actorClause (p : String × ActorActions) : List String :=
  let action_parts :=
    addedPart p.2.added ++ checkedPart p.2.checked
      ++ uncheckedPart p.2.unchecked ++ deletedPart p.2.deleted
  if action_parts.isEmpty then [] else [p.1 ++ " " ++ String.intercalate " and " action_parts]

/-- Embeds `NotificationQueue._format_notification`: returns `(title, body)`. -/
def formatNotification (batch : BatchState) : String × String :=
  let parts := (groupByActor batch.events).flatMap actorClause
  (batch.list_name,
    if parts.isEmpty then "List updated" else String.intercalate "; " parts)

/-! ## Association-list operations for the Python dicts

Python dicts keep insertion order and hold at most one binding per key;
we embed them as association lists whose operations touch the first (and
under the maintained regime, only) binding of a key. -/

/-- Dict lookup, `d.get(k)` / `k in d`. -/
def lookupKey {α : Type} : List (String × α) → String → Option α
  | [], _ => none
  | (k', v) :: rest, k => if k' = k then some v else lookupKey rest k

/-- Dict assignment `d[k] = v` on a key already present: replace its binding in place. -/
def setKey {α : Type} (l : List (String × α)) (k : String) (v : α) : List (String × α) :=
  l.map (fun p => if p.1 = k then (k, v) else p)

/-- The effect of `d.pop(k, None)` on the dict: drop the binding of `k`. -/
def eraseKey {α : Type} (l : List (String × α)) (k : String) : List (String × α) :=
  l.filter (fun p => p.1 ≠ k)

/-! ## Timers and the queue state

Each `asyncio.create_task(self._flush_after_delay(user_id, list_id, d))`
is a live timer: a record of the flush target and the delay it was
created with.  `task.cancel()` removes it from the live list.  Timer
identifiers come from a monotone counter so a cancelled timer is never
confused with its replacement. -/

/-- A live `_flush_after_delay` task: it will flush
`(user_id, list_id)` after `duration` seconds unless cancelled. -/
structure Timer where
  id : Nat
  user_id : String
  list_id : String
  duration : Int
  deriving Repr, DecidableEq

/-- Embeds `NotificationQueue._batch_key` (line 67): `f"{user_id}:{list_id}"`. -/
def batchKey (user_id list_id : String) : String :=
  user_id ++ ":" ++ list_id

/-- The key a live timer will flush. -/
def Timer.key (t : Timer) : String := batchKey t.user_id t.list_id

/-- The mutable state of a `NotificationQueue`: the `_batches` dict plus
the live timer tasks and the fresh-identifier counter. -/
structure QueueState where
  batches : List (String × BatchState)
  timers : List Timer
  nextTimerId : Nat
  deriving Repr, DecidableEq

/-- The empty queue (`NotificationQueue.__init__`). -/
def QueueState.init : QueueState := ⟨[], [], 0⟩

/-- Embeds `batch.timer_task.cancel()` guarded by `if batch.timer_task:`. -/
def cancelTimer (timers : List Timer) : Option Nat → List Timer
  | none => timers
  | some i => timers.filter (fun t => t.id ≠ i)

/-- The live timers aimed at one batch key. -/
def timersFor (s : QueueState) (key : String) : List Timer :=
  s.timers.filter (fun t => t.key = key)

/-- Embeds `NotificationQueue._add_to_batch` (lines 105–150).  Returns the new
state together with the list of keys for which an immediate flush task
was spawned (line 136); all other control flow only reschedules timers. -/
def addToBatch (now : Int) (user_id list_id list_name : String) (event : PendingEvent)
    (s : QueueState) : QueueState × List String :=
  let key := batchKey user_id list_id
  match lookupKey s.batches key with
  | none =>
      -- create new batch with the initial-delay timer (lines 115–126)
      let tid := s.nextTimerId
      let batch : BatchState :=
        { list_id := list_id, list_name := list_name, events := [event],
          timer_task := some tid, started_at := now }
      ({ batches := s.batches ++ [(key, batch)],
         timers := s.timers ++ [⟨tid, user_id, list_id, INITIAL_DELAY⟩],
         nextTimerId := tid + 1 }, [])
  | some batch =>
      let batch' := { batch with events := batch.events ++ [event] }
      if batch'.events.length ≥ MAX_EVENTS then
        -- force flush (lines 131–136): cancel timer, spawn flush task
        ({ s with batches := setKey s.batches key batch',
                  timers := cancelTimer s.timers batch'.timer_task }, [key])
      else
        -- extend the timer up to the max-delay budget (lines 137–150)
        let elapsed := now - batch'.started_at
        let remaining_budget := MAX_DELAY - elapsed
        if remaining_budget > 0 then
          let extension := min EXTEND_DELAY remaining_budget
          let tid := s.nextTimerId
          ({ batches := setKey s.batches key { batch' with timer_task := some tid },
             timers := cancelTimer s.timers batch'.timer_task
                        ++ [⟨tid, user_id, list_id, extension⟩],
             nextTimerId := tid + 1 }, [])
        else
          ({ s with batches := setKey s.batches key batch' }, [])

/-- The recipient loop of `queue_event` (lines 98–103): skip the actor,
add the event to everyone else's batch, collecting spawned flush keys. -/
def queueEventLoop (now : Int) (list_id list_name : String) (event : PendingEvent)
    (actor_user_id : String) :
    List String → QueueState × List String → QueueState × List String
  | [], acc => acc
  | user_id :: rest, acc =>
      queueEventLoop now list_id list_name event actor_user_id rest
        -- CRITICAL: Never notify the actor about their own action
        (if user_id = actor_user_id then acc
         else
           let r := addToBatch now user_id list_id list_name event acc.1
           (r.1, acc.2 ++ r.2))

/-- Embeds `NotificationQueue.queue_event` (lines 69–103): build the
`PendingEvent` once, then under the lock add it to the batch of every
recipient other than the actor. -/
def queueEvent (now : Int) (list_id list_name event_type : String)
    (item_name : Option String) (actor_user_id actor_name : String)
    (recipient_user_ids : List String) (s : QueueState) : QueueState × List String :=
  let event : PendingEvent :=
    { event_type := event_type, item_name := item_name,
      actor_user_id := actor_user_id, actor_name := actor_name, timestamp := now }
  queueEventLoop now list_id list_name event actor_user_id recipient_user_ids (s, [])

/-! ## Notification preferences and quiet hours (push_service.py) -/

/-- The `NotificationPreferences` ORM row (models.py lines 241–256):
`list_updates` ∈ {"always","batched","off"}, nullable quiet bounds. -/
structure NotificationPreferences where
  list_updates : String
  list_sharing : String
  quiet_start : Option String
  quiet_end : Option String
  deriving Repr, DecidableEq

/-- Embeds `push_service.is_quiet_hours` (lines 131–148).  The source reads the
wall clock and formats it as `"%H:%M"`; the embedding receives that
formatted `current_time` as a parameter. -/
def is_quiet_hours (current_time : String) (prefs : Option NotificationPreferences) : Bool :=
  match prefs with
  | none => false
  | some p =>
      if !optStrTruthy p.quiet_start || !optStrTruthy p.quiet_end then false
      else
        let start := p.quiet_start.getD ""
        let stop := p.quiet_end.getD ""
        if strLe start stop then
          -- Same day range (e.g., 09:00 to 17:00): start <= current <= end
          strLe start current_time && strLe current_time stop
        else
          -- Overnight range (e.g., 22:00 to 07:00)
          strLe start current_time || strLe current_time stop

/-! ## `_flush_batch` (notification_queue.py lines 163–210) -/

/-- The externals consulted between popping a batch and delivering it:
the preference lookup (may raise), the `"%H:%M"`-formatted current time
read inside `is_quiet_hours`, and the delivery gateway (may raise;
returns the number of successful sends). -/
structure FlushEnv where
  prefsResult : Except Unit (Option NotificationPreferences)
  current_time : String
  sendResult : Except Unit Nat

/-- Observable result of one `_flush_batch` call. -/
inductive FlushOutcome
  | noBatch
  | disabled
  | quiet
  | sent (title body tag : String) (successes : Nat)
  | failed
  deriving Repr, DecidableEq

/-- The guard `if prefs and prefs.list_updates == "off"` (line 187). -/
def prefsOff : Option NotificationPreferences → Bool
  | none => false
  | some p => p.list_updates == "off"

/-- Embeds `NotificationQueue._flush_batch`: pop the batch from `_batches`
before any I/O; an empty pop is a no-op; preference `"off"` and quiet
hours suppress delivery; any exception from the external calls is caught
at this boundary and the batch is not re-inserted. -/
def flushBatch (env : FlushEnv) (user_id list_id : String) (s : QueueState) :
    QueueState × FlushOutcome :=
  let key := batchKey user_id list_id
  let popped := lookupKey s.batches key
  let s' := { s with batches := eraseKey s.batches key }
  match popped with
  | none => (s', .noBatch)
  | some batch =>
      if batch.events.isEmpty then (s', .noBatch)
      else
        let fmt := formatNotification batch
        match env.prefsResult with
        | .error _ => (s', .failed)
        | .ok prefs =>
            if prefsOff prefs then
              (s', .disabled)
            else if is_quiet_hours env.current_time prefs then
              (s', .quiet)
            else
              match env.sendResult with
              | .error _ => (s', .failed)
              | .ok n => (s', .sent fmt.1 fmt.2 ("list-" ++ list_id) n)

/-- A live timer elapsing (`_flush_after_delay`, lines 152–161): the
sleeping task completes (leaves the live set) and runs `_flush_batch`.  -/
def fireTimer (env : FlushEnv) (t : Timer) (s : QueueState) : QueueState × FlushOutcome :=
  flushBatch env t.user_id t.list_id
    { s with timers := s.timers.filter (fun t' => t'.id ≠ t.id) }

/-! ## Event broadcaster (event_broadcaster.py) -/

/-- Queue size limit per subscriber (line 16). -/
def SUBSCRIBER_QUEUE_SIZE : Nat := 100

/-- The `ListEvent` dataclass (lines 22–32). -/
structure ListEvent where
  event_type : String
  list_id : String
  item_id : Option String
  item_name : Option String
  user_id : Option String
  user_name : Option String
  timestamp : String
  deriving Repr, DecidableEq

/-- One subscriber's `asyncio.Queue(maxsize=SUBSCRIBER_QUEUE_SIZE)`:
identified by object identity (`id`), holding its buffered events in
FIFO order. -/
structure Mailbox where
  id : Nat
  msgs : List ListEvent
  deriving Repr, DecidableEq

/-- The `_subscribers : dict[list_id, set[Queue]]` registry. -/
abbrev Registry : Type := List (String × List Mailbox)

/-- Embeds `get_subscriber_count` (lines 162–164): `len(d.get(list_id, set()))`. -/
def subscriberCount (reg : Registry) (list_id : String) : Nat :=
  ((lookupKey reg list_id).getD []).length

/-- The registration half of `subscribe` (lines 85–95): create a fresh
bounded queue and add it to the (possibly new) set for `list_id`. -/
def subscribeAdd (reg : Registry) (list_id : String) (mid : Nat) : Registry :=
  match lookupKey reg list_id with
  | none => reg ++ [(list_id, [⟨mid, []⟩])]
  | some ms => setKey reg list_id (ms ++ [⟨mid, []⟩])

/-- The `finally:` cleanup half of `subscribe` (lines 110–125): discard
this subscriber's queue and drop the registry entry if the set emptied.
This block runs on every exit path of the consuming loop (normal return,
exception, cancellation). -/
def subscribeCleanup (reg : Registry) (list_id : String) (mid : Nat) : Registry :=
  match lookupKey reg list_id with
  | none => reg
  | some ms =>
      let ms' := ms.filter (fun m => m.id ≠ mid)
      if ms'.isEmpty then eraseKey reg list_id
      else setKey reg list_id ms'

/-- Embeds `put_nowait` guarded by `except QueueFull` (lines 149–154): append
when below capacity, silently drop otherwise. -/
def offerEvent (e : ListEvent) (m : Mailbox) : Mailbox :=
  if m.msgs.length < SUBSCRIBER_QUEUE_SIZE then { m with msgs := m.msgs ++ [e] }
  else m

/-- Embeds `EventBroadcaster.publish` (lines 127–160): snapshot the subscriber
set of `event.list_id` and attempt a non-blocking enqueue to each member;
other lists' subscribers are untouched. -/
def publish (e : ListEvent) (reg : Registry) : Registry :=
  match lookupKey reg e.list_id with
  | none => reg
  | some ms => setKey reg e.list_id (ms.map (offerEvent e))

/-! ## Association-list lemmas -/

theorem lookupKey_cons {α : Type} (a : String) (b : α) (rest : List (String × α))
    (k : String) :
    lookupKey ((a, b) :: rest) k = if a = k then some b else lookupKey rest k := rfl

theorem setKey_cons {α : Type} (a : String) (b : α) (rest : List (String × α))
    (k : String) (v : α) :
    setKey ((a, b) :: rest) k v
      = (if a = k then (k, v) else (a, b)) :: setKey rest k v := by
  by_cases hak : a = k <;> simp [setKey, hak]

theorem eraseKey_cons {α : Type} (a : String) (b : α) (rest : List (String × α))
    (k : String) :
    eraseKey ((a, b) :: rest) k
      = if a = k then eraseKey rest k else (a, b) :: eraseKey rest k := by
  by_cases hak : a = k <;> simp [eraseKey, List.filter_cons, hak]

theorem lookupKey_append_singleton_ne {α : Type} (l : List (String × α)) {k k' : String}
    (v : α) (h : k' ≠ k) : lookupKey (l ++ [(k, v)]) k' = lookupKey l k' := by
  induction l with
  | nil =>
      rw [List.nil_append, lookupKey_cons, if_neg (fun h' => h h'.symm)]
  | cons p rest ih =>
      obtain ⟨a, b⟩ := p
      rw [List.cons_append, lookupKey_cons, lookupKey_cons, ih]

theorem lookupKey_setKey_ne {α : Type} (l : List (String × α)) {k k' : String}
    (v : α) (h : k' ≠ k) : lookupKey (setKey l k v) k' = lookupKey l k' := by
  induction l with
  | nil => rfl
  | cons p rest ih =>
      obtain ⟨a, b⟩ := p
      rw [setKey_cons]
      by_cases hak : a = k
      · rw [if_pos hak, lookupKey_cons, if_neg (fun h' => h h'.symm), ih,
          lookupKey_cons, if_neg (by rw [hak]; exact fun h' => h h'.symm)]
      · rw [if_neg hak, lookupKey_cons, lookupKey_cons, ih]

theorem lookupKey_setKey_self {α : Type} (l : List (String × α)) (k : String) (v : α)
    (h : (lookupKey l k).isSome) : lookupKey (setKey l k v) k = some v := by
  induction l with
  | nil => simp [lookupKey] at h
  | cons p rest ih =>
      obtain ⟨a, b⟩ := p
      rw [setKey_cons]
      by_cases hak : a = k
      · rw [if_pos hak, lookupKey_cons, if_pos rfl]
      · rw [lookupKey_cons, if_neg hak] at h
        rw [if_neg hak, lookupKey_cons, if_neg hak, ih h]

theorem lookupKey_eraseKey_self {α : Type} (l : List (String × α)) (k : String) :
    lookupKey (eraseKey l k) k = none := by
  induction l with
  | nil => rfl
  | cons p rest ih =>
      obtain ⟨a, b⟩ := p
      rw [eraseKey_cons]
      by_cases hak : a = k
      · rw [if_pos hak]; exact ih
      · rw [if_neg hak, lookupKey_cons, if_neg hak]; exact ih

theorem lookupKey_eraseKey_ne {α : Type} (l : List (String × α)) {k k' : String}
    (h : k' ≠ k) : lookupKey (eraseKey l k) k' = lookupKey l k' := by
  induction l with
  | nil => rfl
  | cons p rest ih =>
      obtain ⟨a, b⟩ := p
      rw [eraseKey_cons]
      by_cases hak : a = k
      · rw [if_pos hak, ih, lookupKey_cons,
          if_neg (by rw [hak]; exact fun h' => h h'.symm)]
      · rw [if_neg hak, lookupKey_cons, lookupKey_cons, ih]

/-- A batch key determines its user part when the list part is fixed. -/
theorem batchKey_left_inj {u u' l : String} (h : batchKey u l = batchKey u' l) : u = u' := by
  unfold batchKey at h
  have h1 : u ++ ":" = u' ++ ":" := by
    have hd := congrArg String.data h
    simp only [String.data_append] at hd
    have := List.append_cancel_right hd
    apply String.ext
    simpa [String.data_append] using this
  have hd := congrArg String.data h1
  simp only [String.data_append] at hd
  exact String.ext (List.append_cancel_right hd)

/-! ## Frame lemmas for the batcher -/

/-- Adding to one recipient's batch touches no other batch key. -/
theorem addToBatch_lookup_ne (now : Int) (user_id list_id list_name : String)
    (event : PendingEvent) (s : QueueState) {k : String}
    (h : k ≠ batchKey user_id list_id) :
    lookupKey (addToBatch now user_id list_id list_name event s).1.batches k
      = lookupKey s.batches k := by
  simp only [addToBatch]
  cases hl : lookupKey s.batches (batchKey user_id list_id) with
  | none =>
      simp only [hl]
      exact lookupKey_append_singleton_ne _ _ h
  | some batch =>
      simp only [hl]
      split
      · exact lookupKey_setKey_ne _ _ h
      · split
        · exact lookupKey_setKey_ne _ _ h
        · exact lookupKey_setKey_ne _ _ h

/-- The recipient loop never touches the actor's own batch key. -/
theorem queueEventLoop_lookup_actor (now : Int) (list_id list_name : String)
    (event : PendingEvent) (actor : String) (recipients : List String)
    (acc : QueueState × List String) :
    lookupKey (queueEventLoop now list_id list_name event actor recipients acc).1.batches
        (batchKey actor list_id)
      = lookupKey acc.1.batches (batchKey actor list_id) := by
  induction recipients generalizing acc with
  | nil => rfl
  | cons u rest ih =>
      simp only [queueEventLoop]
      by_cases hu : u = actor
      · rw [if_pos hu]; exact ih _
      · rw [if_neg hu, ih _]
        exact addToBatch_lookup_ne now u list_id list_name event acc.1
          (fun hk => hu (batchKey_left_inj hk).symm)

/-- A recipient list consisting only of the actor leaves the loop's
accumulator untouched. -/
theorem queueEventLoop_all_actor (now : Int) (list_id list_name : String)
    (event : PendingEvent) (actor : String) (recipients : List String)
    (acc : QueueState × List String) (hall : ∀ u ∈ recipients, u = actor) :
    queueEventLoop now list_id list_name event actor recipients acc = acc := by
  induction recipients generalizing acc with
  | nil => rfl
  | cons u rest ih =>
      simp only [queueEventLoop, if_pos (hall u (by simp))]
      exact ih _ (fun u' hu' => hall u' (by simp [hu']))

/-- C1 (self-exclusion invariant): `queue_event` never creates or
appends a batch entry under the actor's own batch key — the actor's
entry in `_batches` is untouched whatever the recipient list — and when
every recipient *is* the actor (the sole-recipient case in particular)
the whole call is a no-op: no batch is created, no timer started, no
flush spawned. -/
theorem queue_event_self_exclusion
    (now : Int) (list_id list_name event_type : String) (item_name : Option String)
    (actor_user_id actor_name : String) (recipients : List String) (s : QueueState) :
    lookupKey (queueEvent now list_id list_name event_type item_name actor_user_id
        actor_name recipients s).1.batches (batchKey actor_user_id list_id)
      = lookupKey s.batches (batchKey actor_user_id list_id)
    ∧ ((∀ u ∈ recipients, u = actor_user_id) →
        queueEvent now list_id list_name event_type item_name actor_user_id
          actor_name recipients s = (s, [])) := by
  constructor
  · exact queueEventLoop_lookup_actor now list_id list_name _ actor_user_id recipients (s, [])
  · intro hall
    exact queueEventLoop_all_actor now list_id list_name _ actor_user_id recipients
      (s, []) hall

/-- Witness for C1 at a concrete input: Amy acting alone on her own list
produces no batch at all. -/
theorem queue_event_self_exclusion_witness :
    queueEvent 0 "L1" "Groceries" "item_checked" (some "Milk") "u1" "Amy" ["u1"]
        QueueState.init = (QueueState.init, [])
    ∧ lookupKey (queueEvent 0 "L1" "Groceries" "item_checked" (some "Milk") "u1" "Amy"
        ["u1", "u2"] QueueState.init).1.batches (batchKey "u1" "L1")
      = lookupKey QueueState.init.batches (batchKey "u1" "L1") :=
  ⟨(queue_event_self_exclusion 0 "L1" "Groceries" "item_checked" (some "Milk") "u1" "Amy"
      ["u1"] QueueState.init).2 (by decide),
   (queue_event_self_exclusion 0 "L1" "Groceries" "item_checked" (some "Milk") "u1" "Amy"
      ["u1", "u2"] QueueState.init).1⟩

/-! ## Flush-path lemmas -/

/-- A dict with no binding for `k` is unchanged by `pop(k, None)`. -/
theorem eraseKey_of_lookup_none {α : Type} (l : List (String × α)) (k : String)
    (h : lookupKey l k = none) : eraseKey l k = l := by
  induction l with
  | nil => rfl
  | cons p rest ih =>
      obtain ⟨a, b⟩ := p
      rw [lookupKey_cons] at h
      by_cases hak : a = k
      · rw [if_pos hak] at h; exact absurd h (by simp)
      · rw [if_neg hak] at h
        rw [eraseKey_cons, if_neg hak, ih h]

/-- Whatever happens downstream, `_flush_batch` leaves `_batches` equal
to the map with the key popped. -/
theorem flushBatch_fst_batches (env : FlushEnv) (user_id list_id : String) (s : QueueState) :
    (flushBatch env user_id list_id s).1.batches
      = eraseKey s.batches (batchKey user_id list_id) := by
  simp only [flushBatch]
  cases lookupKey s.batches (batchKey user_id list_id) with
  | none => rfl
  | some batch =>
      by_cases hev : batch.events.isEmpty
      · simp [hev]
      · simp only [hev]
        cases env.prefsResult with
        | error e => simp
        | ok p =>
            by_cases hoff : prefsOff p
            · simp [hoff]
            · by_cases hq : is_quiet_hours env.current_time p
              · simp [hoff, hq]
              · cases env.sendResult with
                | error e => simp [hoff, hq]
                | ok n => simp [hoff, hq]

/-- Flushing never touches the live timers. -/
theorem flushBatch_fst_timers (env : FlushEnv) (user_id list_id : String) (s : QueueState) :
    (flushBatch env user_id list_id s).1.timers = s.timers := by
  simp only [flushBatch]
  cases lookupKey s.batches (batchKey user_id list_id) with
  | none => rfl
  | some batch =>
      by_cases hev : batch.events.isEmpty
      · simp [hev]
      · simp only [hev]
        cases env.prefsResult with
        | error e => simp
        | ok p =>
            by_cases hoff : prefsOff p
            · simp [hoff]
            · by_cases hq : is_quiet_hours env.current_time p
              · simp [hoff, hq]
              · cases env.sendResult with
                | error e => simp [hoff, hq]
                | ok n => simp [hoff, hq]

/-- Flushing a key with no batch is a complete no-op. -/
theorem flushBatch_of_lookup_none (env : FlushEnv) (user_id list_id : String)
    (s : QueueState) (h : lookupKey s.batches (batchKey user_id list_id) = none) :
    flushBatch env user_id list_id s = (s, FlushOutcome.noBatch) := by
  simp only [flushBatch, h, eraseKey_of_lookup_none _ _ h]

/-- C7 (flush semantics and error isolation): `_flush_batch` pops the
batch before any formatting or delivery I/O — afterwards the key is
absent from `_batches` in every case, success or failure; a flush whose
key has no batch is a no-op that sends nothing; an empty-events batch is
likewise a no-op; and an exception raised by the preference lookup or by
the delivery gateway is absorbed at the flush boundary (`failed`
outcome) without the batch being re-inserted. -/
theorem flush_batch_pop_and_error_isolation (env : FlushEnv) (user_id list_id : String)
    (s : QueueState) :
    (flushBatch env user_id list_id s).1.batches
        = eraseKey s.batches (batchKey user_id list_id)
    ∧ lookupKey (flushBatch env user_id list_id s).1.batches (batchKey user_id list_id)
        = none
    ∧ (lookupKey s.batches (batchKey user_id list_id) = none →
        flushBatch env user_id list_id s = (s, FlushOutcome.noBatch))
    ∧ (∀ b, lookupKey s.batches (batchKey user_id list_id) = some b → b.events = [] →
        (flushBatch env user_id list_id s).2 = FlushOutcome.noBatch)
    ∧ (∀ b, lookupKey s.batches (batchKey user_id list_id) = some b → b.events ≠ [] →
        env.prefsResult = .error () →
        (flushBatch env user_id list_id s).2 = FlushOutcome.failed)
    ∧ (∀ b, lookupKey s.batches (batchKey user_id list_id) = some b → b.events ≠ [] →
        ∀ p, env.prefsResult = .ok p → prefsOff p = false →
        is_quiet_hours env.current_time p = false →
        env.sendResult = .error () →
        (flushBatch env user_id list_id s).2 = FlushOutcome.failed) := by
  refine ⟨flushBatch_fst_batches env user_id list_id s, ?_, ?_, ?_, ?_, ?_⟩
  · rw [flushBatch_fst_batches]
    exact lookupKey_eraseKey_self _ _
  · exact flushBatch_of_lookup_none env user_id list_id s
  · intro b hb hev
    simp only [flushBatch, hb]
    simp [hev]
  · intro b hb hev hpr
    simp only [flushBatch, hb]
    simp [hev, hpr]
  · intro b hb hev p hpr hoff hq hsend
    simp only [flushBatch, hb]
    simp [hev, hpr, hoff, hq, hsend]

/-- Witness for C7: a concrete one-batch state flushed with a failing
preference lookup comes back `failed` with the key gone, and flushing a
key that has no batch is a no-op. -/
theorem flush_batch_pop_and_error_isolation_witness :
    (flushBatch ⟨.error (), "12:00", .ok 1⟩ "u2" "L1"
        ⟨[("u2:L1", ⟨"L1", "Groceries", [⟨"item_checked", some "Milk", "u1", "Amy", 0⟩],
            some 0, 0⟩)], [⟨0, "u2", "L1", 30⟩], 1⟩).2 = FlushOutcome.failed
    ∧ lookupKey (flushBatch ⟨.error (), "12:00", .ok 1⟩ "u2" "L1"
        ⟨[("u2:L1", ⟨"L1", "Groceries", [⟨"item_checked", some "Milk", "u1", "Amy", 0⟩],
            some 0, 0⟩)], [⟨0, "u2", "L1", 30⟩], 1⟩).1.batches (batchKey "u2" "L1") = none
    ∧ flushBatch ⟨.ok none, "12:00", .ok 1⟩ "u9" "L9" QueueState.init
        = (QueueState.init, FlushOutcome.noBatch) := by
  refine ⟨?_, ?_, ?_⟩
  · exact (flush_batch_pop_and_error_isolation ⟨.error (), "12:00", .ok 1⟩ "u2" "L1"
        ⟨[("u2:L1", ⟨"L1", "Groceries", [⟨"item_checked", some "Milk", "u1", "Amy", 0⟩],
            some 0, 0⟩)], [⟨0, "u2", "L1", 30⟩], 1⟩).2.2.2.2.1
      ⟨"L1", "Groceries", [⟨"item_checked", some "Milk", "u1", "Amy", 0⟩], some 0, 0⟩
      (by decide) (by decide) rfl
  · exact (flush_batch_pop_and_error_isolation ⟨.error (), "12:00", .ok 1⟩ "u2" "L1"
        ⟨[("u2:L1", ⟨"L1", "Groceries", [⟨"item_checked", some "Milk", "u1", "Amy", 0⟩],
            some 0, 0⟩)], [⟨0, "u2", "L1", 30⟩], 1⟩).2.1
  · exact (flush_batch_pop_and_error_isolation ⟨.ok none, "12:00", .ok 1⟩ "u9" "L9"
        QueueState.init).2.2.1 (by decide)

/-- Python string `<=` is reflexive. -/
theorem charListLe_refl (l : List Char) : charListLe l l = true := by
  induction l with
  | nil => rfl
  | cons c cs ih => simp [charListLe, ih]

theorem strLe_refl (a : String) : strLe a a = true := charListLe_refl a.data

/-- A non-empty optional string is truthy. -/
theorem optStrTruthy_some_of_ne (s : String) (h : s ≠ "") :
    optStrTruthy (some s) = true := by
  have he : s.isEmpty = false := by
    cases he : s.isEmpty
    · rfl
    · exact absurd ((String.isEmpty_iff s).mp he) h
  simp [optStrTruthy, he]

/-- A truthy item name passes through `item_name or "item"` unchanged. -/
theorem orItem_some_of_ne (s : String) (h : s ≠ "") : orItem (some s) = s := by
  have he : s.isEmpty = false := by
    cases he : s.isEmpty
    · rfl
    · exact absurd ((String.isEmpty_iff s).mp he) h
  simp [orItem, he]

/-- Counterexample to C4 as stated: with quiet window `09:00`–`17:00`
and the current time exactly `17:00` (= `quiet_end`), the flush is
suppressed as quiet — the source's same-day test is
`start <= current_time <= end`, inclusive at `quiet_end`, not the
half-open `[quiet_start, quiet_end)` window the claim asserts. -/
theorem quiet_end_boundary_counterexample :
    (flushBatch ⟨.ok (some ⟨"batched", "always", some "09:00", some "17:00"⟩), "17:00", .ok 1⟩
        "u2" "L1"
        ⟨[("u2:L1", ⟨"L1", "Groceries", [⟨"item_checked", some "Milk", "u1", "Amy", 0⟩],
            some 0, 0⟩)], [], 1⟩).2 = FlushOutcome.quiet := by
  decide

/-- C4 corrected (flush-time suppression with a *closed* quiet
window): at flush time, a stored preference with `list_updates = "off"`
suppresses delivery; otherwise the flush is suppressed as quiet exactly
when `is_quiet_hours` holds; and for set, non-empty quiet bounds,
`is_quiet_hours` holds exactly on the closed window — same-day
(`quiet_start <= quiet_end`): `quiet_start <= now <= quiet_end`;
overnight-wrapping: `now >= quiet_start` or `now <= quiet_end` — so a
current time exactly equal to `quiet_end` is *inside* the window and is
suppressed (inclusive end, contrary to the claim's half-open interval). -/
theorem flush_time_suppression (env : FlushEnv) (user_id list_id : String)
    (s : QueueState) (b : BatchState)
    (hb : lookupKey s.batches (batchKey user_id list_id) = some b)
    (hne : b.events ≠ []) (p : Option NotificationPreferences)
    (hp : env.prefsResult = .ok p) :
    (∀ q, p = some q → q.list_updates = "off" →
        (flushBatch env user_id list_id s).2 = FlushOutcome.disabled)
    ∧ (prefsOff p = false →
        ((flushBatch env user_id list_id s).2 = FlushOutcome.quiet ↔
          is_quiet_hours env.current_time p = true))
    ∧ (∀ now q qs qe, q.quiet_start = some qs → q.quiet_end = some qe →
        qs ≠ "" → qe ≠ "" →
        (is_quiet_hours now (some q) = true ↔
          ((strLe qs qe = true ∧ strLe qs now = true ∧ strLe now qe = true)
            ∨ (strLe qs qe = false ∧ (strLe qs now = true ∨ strLe now qe = true)))))
    ∧ (∀ q qs qe, q.quiet_start = some qs → q.quiet_end = some qe →
        qs ≠ "" → qe ≠ "" → is_quiet_hours qe (some q) = true) := by
  have hqchar : ∀ now q qs qe, q.quiet_start = some qs → q.quiet_end = some qe →
      qs ≠ "" → qe ≠ "" →
      (is_quiet_hours now (some q) = true ↔
        ((strLe qs qe = true ∧ strLe qs now = true ∧ strLe now qe = true)
          ∨ (strLe qs qe = false ∧ (strLe qs now = true ∨ strLe now qe = true)))) := by
    intro now q qs qe hqs hqe hqs' hqe'
    have hts : optStrTruthy (some qs) = true := optStrTruthy_some_of_ne qs hqs'
    have hte : optStrTruthy (some qe) = true := optStrTruthy_some_of_ne qe hqe'
    simp only [is_quiet_hours, hqs, hqe, hts, hte, Bool.not_true, Bool.false_or,
      Bool.or_self, if_false, Option.getD_some]
    cases hcmp : strLe qs qe <;> simp [hcmp]
  refine ⟨?_, ?_, hqchar, ?_⟩
  · intro q hq hoff
    simp only [flushBatch, hb]
    have : prefsOff p = true := by simp [hq, prefsOff, hoff]
    simp [hne, hp, this]
  · intro hoff
    simp only [flushBatch, hb]
    cases hq : is_quiet_hours env.current_time p
    · cases hsend : env.sendResult <;> simp [hne, hp, hoff, hq, hsend]
    · simp [hne, hp, hoff, hq]
  · intro q qs qe hqs hqe hqs' hqe'
    rw [hqchar qe q qs qe hqs hqe hqs' hqe']
    cases hcmp : strLe qs qe
    · exact Or.inr ⟨rfl, Or.inr (strLe_refl qe)⟩
    · exact Or.inl ⟨rfl, rfl, strLe_refl qe⟩

/-- Witness for C4 (corrected): an overnight window `22:00`–`07:00`
suppresses a flush at `23:30`, and `07:00` itself (= `quiet_end`) lies
inside the window. -/
theorem flush_time_suppression_witness :
    (flushBatch ⟨.ok (some ⟨"batched", "always", some "22:00", some "07:00"⟩), "23:30", .ok 1⟩
        "u2" "L1"
        ⟨[("u2:L1", ⟨"L1", "Groceries", [⟨"item_checked", some "Milk", "u1", "Amy", 0⟩],
            some 0, 0⟩)], [], 1⟩).2 = FlushOutcome.quiet
    ∧ is_quiet_hours "07:00" (some ⟨"batched", "always", some "22:00", some "07:00"⟩)
        = true := by
  refine ⟨?_, ?_⟩
  · exact ((flush_time_suppression
        ⟨.ok (some ⟨"batched", "always", some "22:00", some "07:00"⟩), "23:30", .ok 1⟩
        "u2" "L1"
        ⟨[("u2:L1", ⟨"L1", "Groceries", [⟨"item_checked", some "Milk", "u1", "Amy", 0⟩],
            some 0, 0⟩)], [], 1⟩
        ⟨"L1", "Groceries", [⟨"item_checked", some "Milk", "u1", "Amy", 0⟩], some 0, 0⟩
        rfl (by decide) _ rfl).2.1 (by decide)).mpr (by decide)
  · exact (flush_time_suppression
        ⟨.ok (some ⟨"batched", "always", some "22:00", some "07:00"⟩), "23:30", .ok 1⟩
        "u2" "L1"
        ⟨[("u2:L1", ⟨"L1", "Groceries", [⟨"item_checked", some "Milk", "u1", "Amy", 0⟩],
            some 0, 0⟩)], [], 1⟩
        ⟨"L1", "Groceries", [⟨"item_checked", some "Milk", "u1", "Amy", 0⟩], some 0, 0⟩
        rfl (by decide) _ rfl).2.2.2
        ⟨"batched", "always", some "22:00", some "07:00"⟩ "22:00" "07:00"
        rfl rfl (by decide) (by decide)

/-- C10 (missing preferences default to delivery): when the
preference lookup returns no stored record, the flush is not suppressed
— neither the `"off"` check nor `is_quiet_hours` fires on `None` — and
delivery proceeds with the formatted summary; moreover quiet hours never
suppress when either bound is unset. -/
theorem missing_prefs_default_delivery (env : FlushEnv) (user_id list_id : String)
    (s : QueueState) (b : BatchState)
    (hb : lookupKey s.batches (batchKey user_id list_id) = some b)
    (hne : b.events ≠ []) (hp : env.prefsResult = .ok none)
    (n : Nat) (hs : env.sendResult = .ok n) :
    (flushBatch env user_id list_id s).2
      = FlushOutcome.sent (formatNotification b).1 (formatNotification b).2
          ("list-" ++ list_id) n
    ∧ is_quiet_hours env.current_time none = false
    ∧ (∀ now q, q.quiet_start = none ∨ q.quiet_end = none →
        is_quiet_hours now (some q) = false) := by
  refine ⟨?_, rfl, ?_⟩
  · simp only [flushBatch, hb]
    simp [hne, hp, prefsOff, is_quiet_hours, hs]
  · intro now q hq
    rcases hq with hq | hq <;> simp [is_quiet_hours, hq, optStrTruthy]

/-- Witness for C10: Scenario A's flush with no stored preferences
delivers "Amy checked off Milk". -/
theorem missing_prefs_default_delivery_witness :
    (flushBatch ⟨.ok none, "12:00", .ok 1⟩ "u2" "L1"
        ⟨[("u2:L1", ⟨"L1", "Groceries", [⟨"item_checked", some "Milk", "u1", "Amy", 0⟩],
            some 0, 0⟩)], [], 1⟩).2
      = FlushOutcome.sent "Groceries" "Amy checked off Milk" "list-L1" 1 := by
  have h := (missing_prefs_default_delivery ⟨.ok none, "12:00", .ok 1⟩ "u2" "L1"
      ⟨[("u2:L1", ⟨"L1", "Groceries", [⟨"item_checked", some "Milk", "u1", "Amy", 0⟩],
          some 0, 0⟩)], [], 1⟩
      ⟨"L1", "Groceries", [⟨"item_checked", some "Milk", "u1", "Amy", 0⟩], some 0, 0⟩
      rfl (by decide) rfl 1 rfl).1
  rw [h]
  decide

/-! ## Timer bookkeeping invariants -/

/-- Well-formedness of a queue state's timer bookkeeping, true of every
state the queue actually reaches: live timer identifiers are below the
fresh counter and pairwise distinct, and every live timer is owned by
the batch at its key (`batch.timer_task` names it). -/
abbrev QueueWF (s : QueueState) : Prop :=
  (∀ t ∈ s.timers, t.id < s.nextTimerId)
  ∧ (s.timers.map Timer.id).Nodup
  ∧ (∀ t ∈ s.timers, (lookupKey s.batches t.key).bind BatchState.timer_task = some t.id)

/-- Under `QueueWF` there is at most one live timer per batch key. -/
theorem timersFor_length_le_one (s : QueueState) (hwf : QueueWF s) (k : String) :
    (timersFor s k).length ≤ 1 := by
  obtain ⟨-, hnodup, howned⟩ := hwf
  cases h : timersFor s k with
  | nil => simp
  | cons t rest =>
      cases rest with
      | nil => simp
      | cons t' rest' =>
          exfalso
          have hsub : List.Sublist (timersFor s k) s.timers := List.filter_sublist _
          have hmem : t ∈ s.timers :=
            hsub.subset (by rw [h]; exact List.mem_cons_self _ _)
          have hmem' : t' ∈ s.timers :=
            hsub.subset (by rw [h]; exact List.mem_cons_of_mem _ (List.mem_cons_self _ _))
          have hkey : t.key = k := by
            have := List.mem_filter.mp (h ▸ List.mem_cons_self t (t' :: rest') :
              t ∈ timersFor s k)
            exact of_decide_eq_true this.2
          have hkey' : t'.key = k := by
            have := List.mem_filter.mp
              (h ▸ List.mem_cons_of_mem _ (List.mem_cons_self t' rest') :
                t' ∈ timersFor s k)
            exact of_decide_eq_true this.2
          have hid : t.id = t'.id := by
            have h1 := howned t hmem
            have h2 := howned t' hmem'
            rw [hkey] at h1
            rw [hkey'] at h2
            rw [h1] at h2
            exact Option.some.inj h2
          have hnd : ((timersFor s k).map Timer.id).Nodup :=
            (hsub.map Timer.id).nodup hnodup
          rw [h] at hnd
          simp only [List.map_cons, List.nodup_cons, List.mem_cons] at hnd
          exact hnd.1 (Or.inl hid)

/-- Cancelling the batch's own timer removes every live timer aimed at
that key (there is none when `timer_task` is unset). -/
theorem cancelTimer_filter_key_eq_nil (s : QueueState) (hwf : QueueWF s)
    (key : String) (batch : BatchState) (hb : lookupKey s.batches key = some batch) :
    (cancelTimer s.timers batch.timer_task).filter (fun t => t.key = key) = [] := by
  obtain ⟨-, -, howned⟩ := hwf
  cases htt : batch.timer_task with
  | none =>
      simp only [cancelTimer]
      rw [List.filter_eq_nil_iff]
      intro t hmem hk
      have hown := howned t hmem
      rw [of_decide_eq_true hk, hb] at hown
      simp only [Option.some_bind] at hown
      rw [htt] at hown
      simp at hown
  | some i =>
      simp only [cancelTimer]
      rw [List.filter_eq_nil_iff]
      intro t hmem hk
      obtain ⟨hmem', hne⟩ := List.mem_filter.mp hmem
      have hown := howned t hmem'
      rw [of_decide_eq_true hk, hb] at hown
      simp only [Option.some_bind] at hown
      rw [htt] at hown
      exact (of_decide_eq_true hne) (Option.some.inj hown).symm

/-- Cancelling (or not) only ever removes timers. -/
theorem cancelTimer_sublist (timers : List Timer) (tt : Option Nat) :
    List.Sublist (cancelTimer timers tt) timers := by
  cases tt with
  | none => exact List.Sublist.refl _
  | some i => exact List.filter_sublist _

/-- Reduction of `_add_to_batch` on an existing batch that stays below
`MAX_EVENTS`: the two timer-extension outcomes. -/
theorem addToBatch_extend_eq (now : Int) (user_id list_id list_name : String)
    (event : PendingEvent) (s : QueueState) (batch : BatchState)
    (hb : lookupKey s.batches (batchKey user_id list_id) = some batch)
    (hcount : batch.events.length + 1 < MAX_EVENTS) :
    addToBatch now user_id list_id list_name event s
      = if MAX_DELAY - (now - batch.started_at) > 0 then
          ({ batches := setKey s.batches (batchKey user_id list_id)
                { batch with events := batch.events ++ [event],
                             timer_task := some s.nextTimerId },
             timers := cancelTimer s.timers batch.timer_task
                        ++ [⟨s.nextTimerId, user_id, list_id,
                            min EXTEND_DELAY (MAX_DELAY - (now - batch.started_at))⟩],
             nextTimerId := s.nextTimerId + 1 }, [])
        else
          ({ s with
              batches := setKey s.batches (batchKey user_id list_id)
                           { batch with events := batch.events ++ [event] } }, []) := by
  have hcount' : batch.events.length + 1 < 15 := hcount
  simp only [addToBatch, hb]
  split
  · next hform =>
      exfalso
      simp only [List.length_append, List.length_cons, List.length_nil, MAX_EVENTS] at hform
      omega
  · rfl

/-- C5 (timer extension formula): an enqueue that appends to an
existing batch and stays below `MAX_EVENTS` spawns no flush; when the
remaining budget `MAX_DELAY - elapsed` is positive it cancels the
batch's current timer and leaves exactly one live timer for the key, of
duration `min(EXTEND_DELAY, MAX_DELAY - elapsed)`; when the budget is
exhausted the live timers are untouched (the batch keeps its
already-scheduled flush); and in every case at most one live timer per
batch key survives. -/
theorem add_to_batch_timer_extension
    (now : Int) (user_id list_id list_name : String) (event : PendingEvent)
    (s : QueueState) (batch : BatchState) (hwf : QueueWF s)
    (hb : lookupKey s.batches (batchKey user_id list_id) = some batch)
    (hcount : batch.events.length + 1 < MAX_EVENTS) :
    (addToBatch now user_id list_id list_name event s).2 = []
    ∧ (MAX_DELAY - (now - batch.started_at) > 0 →
        timersFor (addToBatch now user_id list_id list_name event s).1
            (batchKey user_id list_id)
          = [⟨s.nextTimerId, user_id, list_id,
              min EXTEND_DELAY (MAX_DELAY - (now - batch.started_at))⟩]
        ∧ ∀ t ∈ s.timers, t.key = batchKey user_id list_id →
            t ∉ (addToBatch now user_id list_id list_name event s).1.timers)
    ∧ (MAX_DELAY - (now - batch.started_at) ≤ 0 →
        (addToBatch now user_id list_id list_name event s).1.timers = s.timers)
    ∧ (∀ k, (timersFor (addToBatch now user_id list_id list_name event s).1 k).length
          ≤ 1) := by
  have heq := addToBatch_extend_eq now user_id list_id list_name event s batch hb hcount
  refine ⟨?_, ?_, ?_, ?_⟩
  · rw [heq]
    by_cases hbud : MAX_DELAY - (now - batch.started_at) > 0
    · rw [if_pos hbud]
    · rw [if_neg hbud]
  · intro hbud
    rw [heq, if_pos hbud]
    constructor
    · simp only [timersFor]
      rw [List.filter_append,
        cancelTimer_filter_key_eq_nil s hwf (batchKey user_id list_id) batch hb,
        List.nil_append]
      simp [Timer.key]
    · intro t hmem hkey hmem'
      rcases List.mem_append.mp hmem' with hc | hn
      · have hmemf : t ∈ (cancelTimer s.timers batch.timer_task).filter
            (fun t => t.key = batchKey user_id list_id) :=
          List.mem_filter.mpr ⟨hc, by simp [hkey]⟩
        rw [cancelTimer_filter_key_eq_nil s hwf (batchKey user_id list_id) batch hb]
          at hmemf
        simp at hmemf
      · have ht : t = ⟨s.nextTimerId, user_id, list_id,
            min EXTEND_DELAY (MAX_DELAY - (now - batch.started_at))⟩ := by
          simpa using hn
        have hlt := hwf.1 t hmem
        rw [ht] at hlt
        exact absurd hlt (lt_irrefl _)
  · intro hbud
    rw [heq, if_neg (not_lt.mpr hbud)]
  · intro k
    rw [heq]
    by_cases hbud : MAX_DELAY - (now - batch.started_at) > 0
    · rw [if_pos hbud]
      simp only [timersFor]
      rw [List.filter_append, List.length_append]
      by_cases hk : k = batchKey user_id list_id
      · subst hk
        rw [cancelTimer_filter_key_eq_nil s hwf _ batch hb]
        simp [Timer.key]
      · have h1 : List.Sublist
            ((cancelTimer s.timers batch.timer_task).filter (fun t => t.key = k))
            (timersFor s k) :=
          (cancelTimer_sublist s.timers batch.timer_task).filter _
        have h2 := le_trans h1.length_le (timersFor_length_le_one s hwf k)
        have h3 : (List.filter (fun t => decide (t.key = k))
            [(⟨s.nextTimerId, user_id, list_id,
                min EXTEND_DELAY (MAX_DELAY - (now - batch.started_at))⟩ : Timer)]).length
            = 0 := by
          have hk' : ¬ (batchKey user_id list_id = k) := fun h => hk h.symm
          simp [Timer.key, hk']
        rw [h3]
        simpa using h2
    · rw [if_neg hbud]
      exact timersFor_length_le_one s hwf k

/-- Witness for C5: a second event at `t = 5s` on a one-event batch
(started at 0, timer 0 live) spawns no flush, and replaces the timer by
a single fresh one of duration `min(10, 120 - 5) = 10`. -/
theorem add_to_batch_timer_extension_witness :
    timersFor (addToBatch 5 "u2" "L1" "Groceries"
        ⟨"item_created", some "Eggs", "u1", "Amy", 5⟩
        ⟨[("u2:L1", ⟨"L1", "Groceries", [⟨"item_created", some "Milk", "u1", "Amy", 0⟩],
            some 0, 0⟩)], [⟨0, "u2", "L1", 30⟩], 1⟩).1 (batchKey "u2" "L1")
      = [⟨1, "u2", "L1", min EXTEND_DELAY (MAX_DELAY - (5 - 0))⟩]
    ∧ (addToBatch 5 "u2" "L1" "Groceries"
        ⟨"item_created", some "Eggs", "u1", "Amy", 5⟩
        ⟨[("u2:L1", ⟨"L1", "Groceries", [⟨"item_created", some "Milk", "u1", "Amy", 0⟩],
            some 0, 0⟩)], [⟨0, "u2", "L1", 30⟩], 1⟩).2 = [] := by
  refine ⟨((add_to_batch_timer_extension 5 "u2" "L1" "Groceries"
      ⟨"item_created", some "Eggs", "u1", "Amy", 5⟩
      ⟨[("u2:L1", ⟨"L1", "Groceries", [⟨"item_created", some "Milk", "u1", "Amy", 0⟩],
          some 0, 0⟩)], [⟨0, "u2", "L1", 30⟩], 1⟩
      ⟨"L1", "Groceries", [⟨"item_created", some "Milk", "u1", "Amy", 0⟩], some 0, 0⟩
      (by decide) (by decide) (by decide)).2.1 (by decide)).1,
    (add_to_batch_timer_extension 5 "u2" "L1" "Groceries"
      ⟨"item_created", some "Eggs", "u1", "Amy", 5⟩
      ⟨[("u2:L1", ⟨"L1", "Groceries", [⟨"item_created", some "Milk", "u1", "Amy", 0⟩],
          some 0, 0⟩)], [⟨0, "u2", "L1", 30⟩], 1⟩
      ⟨"L1", "Groceries", [⟨"item_created", some "Milk", "u1", "Amy", 0⟩], some 0, 0⟩
      (by decide) (by decide) (by decide)).1⟩

/-- Reduction of `_add_to_batch` when the append reaches `MAX_EVENTS`:
cancel the timer and spawn an immediate flush task. -/
theorem addToBatch_force_eq (now : Int) (user_id list_id list_name : String)
    (event : PendingEvent) (s : QueueState) (batch : BatchState)
    (hb : lookupKey s.batches (batchKey user_id list_id) = some batch)
    (hcount : MAX_EVENTS ≤ batch.events.length + 1) :
    addToBatch now user_id list_id list_name event s
      = ({ s with
            batches := setKey s.batches (batchKey user_id list_id)
                         { batch with events := batch.events ++ [event] },
            timers := cancelTimer s.timers batch.timer_task },
         [batchKey user_id list_id]) := by
  have hcount' : 15 ≤ batch.events.length + 1 := hcount
  simp only [addToBatch, hb]
  split
  · rfl
  · next hform =>
      exfalso
      simp only [List.length_append, List.length_cons, List.length_nil, MAX_EVENTS] at hform
      omega

/-- A second flush of the same key right after a flush is a no-op. -/
theorem flushBatch_twice_noBatch (env env' : FlushEnv) (u l : String) (s : QueueState) :
    (flushBatch env' u l (flushBatch env u l s).1).2 = FlushOutcome.noBatch := by
  have h : lookupKey (flushBatch env u l s).1.batches (batchKey u l) = none := by
    rw [flushBatch_fst_batches]
    exact lookupKey_eraseKey_self _ _
  rw [flushBatch_of_lookup_none env' u l _ h]

/-- C6 (force flush on burst): an enqueue that brings a batch to
`MAX_EVENTS` events — with no constraint whatsoever on the elapsed time
`now - started_at` — cancels every live timer for that key, spawns
exactly one immediate flush task for exactly that key, leaves all
accumulated events in the batch for that flush to pick up, and a
duplicate flush of the key after the spawned one has run is a no-op, so
exactly one notification results. -/
theorem add_to_batch_force_flush
    (now : Int) (user_id list_id list_name : String) (event : PendingEvent)
    (s : QueueState) (batch : BatchState) (hwf : QueueWF s)
    (hb : lookupKey s.batches (batchKey user_id list_id) = some batch)
    (hcount : batch.events.length + 1 = MAX_EVENTS) :
    (addToBatch now user_id list_id list_name event s).2 = [batchKey user_id list_id]
    ∧ timersFor (addToBatch now user_id list_id list_name event s).1
        (batchKey user_id list_id) = []
    ∧ lookupKey (addToBatch now user_id list_id list_name event s).1.batches
        (batchKey user_id list_id)
      = some { batch with events := batch.events ++ [event] }
    ∧ (∀ env env', (flushBatch env' user_id list_id
          (flushBatch env user_id list_id
            (addToBatch now user_id list_id list_name event s).1).1).2
        = FlushOutcome.noBatch) := by
  have heq := addToBatch_force_eq now user_id list_id list_name event s batch hb
    (le_of_eq hcount.symm)
  refine ⟨?_, ?_, ?_, ?_⟩
  · rw [heq]
  · rw [heq]
    simp only [timersFor]
    exact cancelTimer_filter_key_eq_nil s hwf (batchKey user_id list_id) batch hb
  · rw [heq]
    exact lookupKey_setKey_self _ _ _ (by rw [hb]; rfl)
  · intro env env'
    exact flushBatch_twice_noBatch env env' user_id list_id _

/-- Witness for C6: the 15th event forces an immediate flush of the key,
cancelling the live timer, at `now = 3` — long before any timer budget
is exhausted. -/
theorem add_to_batch_force_flush_witness :
    (addToBatch 3 "u2" "L1" "Groceries"
        ⟨"item_checked", some "Milk", "u1", "Amy", 3⟩
        ⟨[("u2:L1", ⟨"L1", "Groceries",
            List.replicate 14 ⟨"item_checked", some "Milk", "u1", "Amy", 0⟩,
            some 0, 0⟩)], [⟨0, "u2", "L1", 30⟩], 1⟩).2 = [batchKey "u2" "L1"]
    ∧ timersFor (addToBatch 3 "u2" "L1" "Groceries"
        ⟨"item_checked", some "Milk", "u1", "Amy", 3⟩
        ⟨[("u2:L1", ⟨"L1", "Groceries",
            List.replicate 14 ⟨"item_checked", some "Milk", "u1", "Amy", 0⟩,
            some 0, 0⟩)], [⟨0, "u2", "L1", 30⟩], 1⟩).1 (batchKey "u2" "L1") = [] := by
  refine ⟨?_, ?_⟩
  · exact (add_to_batch_force_flush 3 "u2" "L1" "Groceries"
      ⟨"item_checked", some "Milk", "u1", "Amy", 3⟩
      ⟨[("u2:L1", ⟨"L1", "Groceries",
          List.replicate 14 ⟨"item_checked", some "Milk", "u1", "Amy", 0⟩,
          some 0, 0⟩)], [⟨0, "u2", "L1", 30⟩], 1⟩
      ⟨"L1", "Groceries", List.replicate 14 ⟨"item_checked", some "Milk", "u1", "Amy", 0⟩,
        some 0, 0⟩
      (by decide) (by decide) (by decide)).1
  · exact (add_to_batch_force_flush 3 "u2" "L1" "Groceries"
      ⟨"item_checked", some "Milk", "u1", "Amy", 3⟩
      ⟨[("u2:L1", ⟨"L1", "Groceries",
          List.replicate 14 ⟨"item_checked", some "Milk", "u1", "Amy", 0⟩,
          some 0, 0⟩)], [⟨0, "u2", "L1", 30⟩], 1⟩
      ⟨"L1", "Groceries", List.replicate 14 ⟨"item_checked", some "Milk", "u1", "Amy", 0⟩,
        some 0, 0⟩
      (by decide) (by decide) (by decide)).2.1

/-! ## Formatting lemmas -/

/-- The grouping fold on a dict holding exactly one actor keeps updating
that actor in place. -/
theorem groupByActor_fold_single (actor : String) (events : List PendingEvent)
    (hall : ∀ e ∈ events, e.actor_name = actor) (acts : ActorActions) :
    events.foldl
      (fun acc e =>
        if acc.any (fun p => p.1 = e.actor_name) then
          acc.map (fun p => if p.1 = e.actor_name then (p.1, p.2.addEvent e) else p)
        else acc ++ [(e.actor_name, ActorActions.empty.addEvent e)])
      [(actor, acts)]
      = [(actor, events.foldl ActorActions.addEvent acts)] := by
  induction events generalizing acts with
  | nil => rfl
  | cons e rest ih =>
      have he : e.actor_name = actor := hall e (List.mem_cons_self _ _)
      simp only [List.foldl_cons, List.any_cons, List.any_nil, he, List.map_cons,
        List.map_nil, Bool.or_false, decide_True, if_true, if_pos rfl]
      exact ih (fun e' h' => hall e' (List.mem_cons_of_mem _ h')) _

/-- The `by_actor` dict for a non-empty single-actor batch is a one-entry dict
whose buckets are the fold of the classification chain. -/
theorem groupByActor_single (actor : String) (events : List PendingEvent)
    (hall : ∀ e ∈ events, e.actor_name = actor) (hne : events ≠ []) :
    groupByActor events
      = [(actor, events.foldl ActorActions.addEvent ActorActions.empty)] := by
  cases events with
  | nil => cases hne rfl
  | cons e rest =>
      have he : e.actor_name = actor := hall e (List.mem_cons_self _ _)
      simp only [groupByActor, List.foldl_cons, List.any_nil, Bool.false_eq_true,
        if_false, List.nil_append, he]
      rw [groupByActor_fold_single actor rest
        (fun e' h' => hall e' (List.mem_cons_of_mem _ h')) _]

/-- Folding `item_created` events appends their names to the `added` bucket. -/
theorem foldl_addEvent_created (uid actor : String) (ts : Int) (names : List String)
    (hnames : ∀ n ∈ names, n ≠ "") (acts : ActorActions) :
    (names.map (fun n => (⟨"item_created", some n, uid, actor, ts⟩ : PendingEvent))).foldl
        ActorActions.addEvent acts
      = { acts with added := acts.added ++ names } := by
  induction names generalizing acts with
  | nil => simp
  | cons n rest ih =>
      simp only [List.map_cons, List.foldl_cons]
      rw [show ActorActions.addEvent acts ⟨"item_created", some n, uid, actor, ts⟩
            = { acts with added := acts.added ++ [n] } from by
          simp [ActorActions.addEvent,
            orItem_some_of_ne n (hnames n (List.mem_cons_self _ _))]]
      rw [ih (fun n' h' => hnames n' (List.mem_cons_of_mem _ h'))]
      simp

/-- Folding `item_checked` events appends their names to the `checked` bucket. -/
theorem foldl_addEvent_checked (uid actor : String) (ts : Int) (names : List String)
    (hnames : ∀ n ∈ names, n ≠ "") (acts : ActorActions) :
    (names.map (fun n => (⟨"item_checked", some n, uid, actor, ts⟩ : PendingEvent))).foldl
        ActorActions.addEvent acts
      = { acts with checked := acts.checked ++ names } := by
  induction names generalizing acts with
  | nil => simp
  | cons n rest ih =>
      simp only [List.map_cons, List.foldl_cons]
      rw [show ActorActions.addEvent acts ⟨"item_checked", some n, uid, actor, ts⟩
            = { acts with checked := acts.checked ++ [n] } from by
          simp [ActorActions.addEvent,
            orItem_some_of_ne n (hnames n (List.mem_cons_self _ _))]]
      rw [ih (fun n' h' => hnames n' (List.mem_cons_of_mem _ h'))]
      simp

/-- Folding `item_unchecked` events appends their names to the `unchecked` bucket. -/
theorem foldl_addEvent_unchecked (uid actor : String) (ts : Int) (names : List String)
    (hnames : ∀ n ∈ names, n ≠ "") (acts : ActorActions) :
    (names.map (fun n => (⟨"item_unchecked", some n, uid, actor, ts⟩ : PendingEvent))).foldl
        ActorActions.addEvent acts
      = { acts with unchecked := acts.unchecked ++ names } := by
  induction names generalizing acts with
  | nil => simp
  | cons n rest ih =>
      simp only [List.map_cons, List.foldl_cons]
      rw [show ActorActions.addEvent acts ⟨"item_unchecked", some n, uid, actor, ts⟩
            = { acts with unchecked := acts.unchecked ++ [n] } from by
          simp [ActorActions.addEvent,
            orItem_some_of_ne n (hnames n (List.mem_cons_self _ _))]]
      rw [ih (fun n' h' => hnames n' (List.mem_cons_of_mem _ h'))]
      simp

/-- Folding `item_deleted` events appends their names to the `deleted` bucket. -/
theorem foldl_addEvent_deleted (uid actor : String) (ts : Int) (names : List String)
    (hnames : ∀ n ∈ names, n ≠ "") (acts : ActorActions) :
    (names.map (fun n => (⟨"item_deleted", some n, uid, actor, ts⟩ : PendingEvent))).foldl
        ActorActions.addEvent acts
      = { acts with deleted := acts.deleted ++ names } := by
  induction names generalizing acts with
  | nil => simp
  | cons n rest ih =>
      simp only [List.map_cons, List.foldl_cons]
      rw [show ActorActions.addEvent acts ⟨"item_deleted", some n, uid, actor, ts⟩
            = { acts with deleted := acts.deleted ++ [n] } from by
          simp [ActorActions.addEvent,
            orItem_some_of_ne n (hnames n (List.mem_cons_self _ _))]]
      rw [ih (fun n' h' => hnames n' (List.mem_cons_of_mem _ h'))]
      simp

/-- Shape of the rendered `added` clause on a non-empty bucket. -/
theorem addedPart_eq (a : List String) (ha : a ≠ []) :
    addedPart a
      = [if a.length = 1 then "added " ++ a.headD ""
         else if a.length ≤ 3 then "added " ++ String.intercalate ", " a
         else "added " ++ toString a.length ++ " items"] := by
  match a with
  | [] => exact absurd rfl ha
  | [x] => simp [addedPart]
  | x :: y :: rest =>
      have h1 : ¬ ((x :: y :: rest).length = 1) := by simp
      rw [if_neg h1]
      by_cases h3 : (x :: y :: rest).length ≤ 3
      · rw [if_pos h3]
        simp only [addedPart]
        rw [if_pos h3]
      · rw [if_neg h3]
        simp only [addedPart]
        rw [if_neg h3]

/-- Shape of the rendered `checked` clause on a non-empty bucket. -/
theorem checkedPart_eq (c : List String) (hc : c ≠ []) :
    checkedPart c
      = [if c.length = 1 then "checked off " ++ c.headD ""
         else "checked off " ++ toString c.length ++ " items"] := by
  match c with
  | [] => exact absurd rfl hc
  | [x] => simp [checkedPart]
  | x :: y :: rest =>
      have h1 : ¬ ((x :: y :: rest).length = 1) := by simp
      rw [if_neg h1]
      simp [checkedPart]

/-- Shape of the rendered `unchecked` clause on a non-empty bucket. -/
theorem uncheckedPart_eq (u : List String) (hu : u ≠ []) :
    uncheckedPart u
      = ["unchecked " ++ toString u.length ++ " item"
          ++ (if u.length > 1 then "s" else "")] := by
  match u with
  | [] => exact absurd rfl hu
  | x :: rest => rfl

/-- Shape of the rendered `removed` clause on a non-empty bucket. -/
theorem deletedPart_eq (d : List String) (hd : d ≠ []) :
    deletedPart d
      = ["removed " ++ toString d.length ++ " item"
          ++ (if d.length > 1 then "s" else "")] := by
  match d with
  | [] => exact absurd rfl hd
  | x :: rest => rfl

/-- Counterexample to C2 as stated: three `item_created` names render as
"Amy added Eggs, Bread, Juice" — a plain `", "` join with no final
"and", so Scenario B's "Amy added Eggs, Bread and Juice" is wrong — and
a two-element `checked` bucket renders as a count ("checked off 2
items"), not as listed names, so the 2–3-names rule does not hold for
every action-class bucket. -/
theorem summary_bucket_rendering_counterexample :
    (formatNotification ⟨"L1", "Groceries",
        [⟨"item_created", some "Eggs", "u1", "Amy", 0⟩,
         ⟨"item_created", some "Bread", "u1", "Amy", 0⟩,
         ⟨"item_created", some "Juice", "u1", "Amy", 0⟩], none, 0⟩).2
      = "Amy added Eggs, Bread, Juice"
    ∧ (formatNotification ⟨"L1", "Groceries",
        [⟨"item_created", some "Eggs", "u1", "Amy", 0⟩,
         ⟨"item_created", some "Bread", "u1", "Amy", 0⟩,
         ⟨"item_created", some "Juice", "u1", "Amy", 0⟩], none, 0⟩).2
      ≠ "Amy added Eggs, Bread and Juice"
    ∧ (formatNotification ⟨"L1", "Groceries",
        [⟨"item_checked", some "Milk", "u1", "Amy", 0⟩,
         ⟨"item_checked", some "Eggs", "u1", "Amy", 0⟩], none, 0⟩).2
      = "Amy checked off 2 items" := by
  decide

/-- C2 corrected (summary bucket rendering): in a flushed batch the
`added` bucket follows the 1-inline / 2–3-listed / 4+-count rule with
the 2–3 names joined by `", "` only (no final "and"); the `checked`
bucket inlines a single name and collapses to a count for 2 or more;
the `unchecked` and `removed` buckets always render a count (pluralised
for 2+); clauses of one actor are joined by " and ".  Stated for a
single-actor batch carrying all four rendered buckets, with truthy
(non-empty) item names — a falsy name would be replaced by "item" per
`item_name or "item"`. -/
theorem summary_bucket_rendering (actor uid : String) (ts : Int)
    (a c u d : List String) (ha : a ≠ []) (hc : c ≠ []) (hu : u ≠ []) (hd : d ≠ [])
    (ha' : ∀ n ∈ a, n ≠ "") (hc' : ∀ n ∈ c, n ≠ "")
    (hu' : ∀ n ∈ u, n ≠ "") (hd' : ∀ n ∈ d, n ≠ "")
    (listId listName : String) (tt : Option Nat) (st : Int) :
    (formatNotification
        { list_id := listId, list_name := listName,
          events :=
            a.map (fun n => ⟨"item_created", some n, uid, actor, ts⟩)
              ++ c.map (fun n => ⟨"item_checked", some n, uid, actor, ts⟩)
              ++ u.map (fun n => ⟨"item_unchecked", some n, uid, actor, ts⟩)
              ++ d.map (fun n => ⟨"item_deleted", some n, uid, actor, ts⟩),
          timer_task := tt, started_at := st }).2
      = actor ++ " " ++ String.intercalate " and "
          [if a.length = 1 then "added " ++ a.headD ""
           else if a.length ≤ 3 then "added " ++ String.intercalate ", " a
           else "added " ++ toString a.length ++ " items",
           if c.length = 1 then "checked off " ++ c.headD ""
           else "checked off " ++ toString c.length ++ " items",
           "unchecked " ++ toString u.length ++ " item"
             ++ (if u.length > 1 then "s" else ""),
           "removed " ++ toString d.length ++ " item"
             ++ (if d.length > 1 then "s" else "")] := by
  have hall : ∀ e ∈ a.map (fun n => (⟨"item_created", some n, uid, actor, ts⟩ : PendingEvent))
      ++ c.map (fun n => ⟨"item_checked", some n, uid, actor, ts⟩)
      ++ u.map (fun n => ⟨"item_unchecked", some n, uid, actor, ts⟩)
      ++ d.map (fun n => ⟨"item_deleted", some n, uid, actor, ts⟩),
      e.actor_name = actor := by
    intro e he
    simp only [List.mem_append, List.mem_map] at he
    rcases he with ((⟨n, -, rfl⟩ | ⟨n, -, rfl⟩) | ⟨n, -, rfl⟩) | ⟨n, -, rfl⟩ <;> rfl
  have hne : a.map (fun n => (⟨"item_created", some n, uid, actor, ts⟩ : PendingEvent))
      ++ c.map (fun n => ⟨"item_checked", some n, uid, actor, ts⟩)
      ++ u.map (fun n => ⟨"item_unchecked", some n, uid, actor, ts⟩)
      ++ d.map (fun n => ⟨"item_deleted", some n, uid, actor, ts⟩) ≠ [] := by
    intro h
    rw [List.append_eq_nil, List.append_eq_nil, List.append_eq_nil] at h
    exact ha (List.map_eq_nil_iff.mp h.1.1.1)
  have hacts : (a.map (fun n => (⟨"item_created", some n, uid, actor, ts⟩ : PendingEvent))
      ++ c.map (fun n => (⟨"item_checked", some n, uid, actor, ts⟩ : PendingEvent))
      ++ u.map (fun n => (⟨"item_unchecked", some n, uid, actor, ts⟩ : PendingEvent))
      ++ d.map (fun n => (⟨"item_deleted", some n, uid, actor, ts⟩ : PendingEvent))).foldl
        ActorActions.addEvent ActorActions.empty
      = ⟨a, c, u, d, []⟩ := by
    rw [List.foldl_append, List.foldl_append, List.foldl_append,
      foldl_addEvent_created uid actor ts a ha',
      foldl_addEvent_checked uid actor ts c hc',
      foldl_addEvent_unchecked uid actor ts u hu',
      foldl_addEvent_deleted uid actor ts d hd']
    simp [ActorActions.empty]
  have hgroup := groupByActor_single actor _ hall hne
  rw [hacts] at hgroup
  simp only [formatNotification, hgroup, List.flatMap_cons, List.flatMap_nil,
    List.append_nil, actorClause]
  rw [addedPart_eq a ha, checkedPart_eq c hc, uncheckedPart_eq u hu, deletedPart_eq d hd]
  simp only [List.cons_append, List.nil_append, List.isEmpty_cons, Bool.false_eq_true,
    if_false]
  rfl

/-- Witness for C2 (corrected): a mixed single-actor batch with 4 added,
1 checked, 2 unchecked and 1 removed item. -/
theorem summary_bucket_rendering_witness :
    (formatNotification
        { list_id := "L1", list_name := "Groceries",
          events :=
            ["A", "B", "C", "D"].map
                (fun n => ⟨"item_created", some n, "u1", "Amy", 0⟩)
              ++ ["Milk"].map (fun n => ⟨"item_checked", some n, "u1", "Amy", 0⟩)
              ++ ["T", "S"].map (fun n => ⟨"item_unchecked", some n, "u1", "Amy", 0⟩)
              ++ ["X"].map (fun n => ⟨"item_deleted", some n, "u1", "Amy", 0⟩),
          timer_task := none, started_at := 0 }).2
      = "Amy added 4 items and checked off Milk and unchecked 2 items and removed 1 item"
      := by
  have h := summary_bucket_rendering "Amy" "u1" 0 ["A", "B", "C", "D"] ["Milk"]
    ["T", "S"] ["X"] (by decide) (by decide) (by decide) (by decide)
    (by decide) (by decide) (by decide) (by decide)
    "L1" "Groceries" none 0
  rw [h]
  decide

/-- The catch-all event types routed to the `updated` bucket. -/
abbrev isUpdatedType (e : PendingEvent) : Prop :=
  e.event_type = "item_updated" ∨ e.event_type = "items_cleared"
    ∨ e.event_type = "items_restored"

/-- Buckets in which only `updated` may be inhabited. -/
abbrev onlyUpdated (acts : ActorActions) : Prop :=
  acts.added = [] ∧ acts.checked = [] ∧ acts.unchecked = [] ∧ acts.deleted = []

/-- An updated-class event lands in the `updated` bucket and nowhere
else. -/
theorem addEvent_updated (acts : ActorActions) (e : PendingEvent) (h : isUpdatedType e) :
    acts.addEvent e
      = { acts with updated := acts.updated ++ [orItem e.item_name] } := by
  rcases h with h | h | h <;> simp [ActorActions.addEvent, h]

/-- The grouping fold over updated-class events never inhabits a
rendered bucket. -/
theorem groupByActor_fold_updated_only (events : List PendingEvent)
    (hall : ∀ e ∈ events, isUpdatedType e) (acc : List (String × ActorActions))
    (hacc : ∀ p ∈ acc, onlyUpdated p.2) :
    ∀ p ∈ events.foldl
      (fun acc e =>
        if acc.any (fun p => p.1 = e.actor_name) then
          acc.map (fun p => if p.1 = e.actor_name then (p.1, p.2.addEvent e) else p)
        else acc ++ [(e.actor_name, ActorActions.empty.addEvent e)])
      acc, onlyUpdated p.2 := by
  induction events generalizing acc with
  | nil => exact fun p hp => hacc p hp
  | cons e rest ih =>
      simp only [List.foldl_cons]
      apply ih (fun e' h' => hall e' (List.mem_cons_of_mem _ h'))
      have he : isUpdatedType e := hall e (List.mem_cons_self _ _)
      by_cases hany : acc.any (fun p => p.1 = e.actor_name)
      · rw [if_pos hany]
        intro p hp
        obtain ⟨q, hq, rfl⟩ := List.mem_map.mp hp
        by_cases hqe : q.1 = e.actor_name
        · rw [if_pos hqe]
          rw [addEvent_updated q.2 e he]
          exact hacc q hq
        · rw [if_neg hqe]
          exact hacc q hq
      · rw [if_neg hany]
        intro p hp
        rcases List.mem_append.mp hp with hin | hnew
        · exact hacc p hin
        · have : p = (e.actor_name, ActorActions.empty.addEvent e) := by simpa using hnew
          rw [this, addEvent_updated ActorActions.empty e he]
          exact ⟨rfl, rfl, rfl, rfl⟩

/-- An actor with only the `updated` bucket inhabited contributes no
clause. -/
theorem actorClause_onlyUpdated (p : String × ActorActions) (h : onlyUpdated p.2) :
    actorClause p = [] := by
  obtain ⟨h1, h2, h3, h4⟩ := h
  simp [actorClause, h1, h2, h3, h4, addedPart, checkedPart, uncheckedPart, deletedPart]

/-- Counterexample to C3 as stated: a non-empty batch consisting solely
of `item_updated` events renders the generic fallback "List updated" —
the `updated` bucket, unlike the other four, has no rendering block. -/
theorem updated_fallback_counterexample :
    (formatNotification ⟨"L1", "Groceries",
        [⟨"item_updated", some "Milk", "u1", "Amy", 0⟩], none, 0⟩).2
      = "List updated" := by
  decide

/-- C3 corrected (updated bucket collected but never rendered):
`item_updated`, `items_cleared` and `items_restored` events are bucketed
into the actor's `updated` action class (leaving the four rendered
buckets untouched), but that bucket produces no clause, so a non-empty
batch consisting solely of updated-class events falls back to the
generic "List updated" body. -/
theorem updated_bucket_not_rendered (batch : BatchState) (_hne : batch.events ≠ [])
    (hall : ∀ e ∈ batch.events, isUpdatedType e) :
    (formatNotification batch).2 = "List updated"
    ∧ (∀ (acts : ActorActions) (e : PendingEvent), isUpdatedType e →
        acts.addEvent e
          = { acts with updated := acts.updated ++ [orItem e.item_name] }) := by
  refine ⟨?_, fun acts e he => addEvent_updated acts e he⟩
  have hgrp := groupByActor_fold_updated_only batch.events hall [] (by simp)
  have hparts : ∀ (l : List (String × ActorActions)), (∀ p ∈ l, onlyUpdated p.2) →
      l.flatMap actorClause = [] := by
    intro l
    induction l with
    | nil => intro _; rfl
    | cons q rest ih =>
        intro h
        rw [List.flatMap_cons, actorClause_onlyUpdated q (h q (List.mem_cons_self _ _)),
          List.nil_append]
        exact ih (fun p hp => h p (List.mem_cons_of_mem _ hp))
  simp only [formatNotification]
  rw [hparts (groupByActor batch.events) (fun p hp => hgrp p hp)]
  rfl

/-- Witness for C3 (corrected): a clear-then-restore batch falls back to
"List updated", and an `items_cleared` event goes to the `updated`
bucket. -/
theorem updated_bucket_not_rendered_witness :
    (formatNotification ⟨"L1", "Groceries",
        [⟨"items_cleared", none, "u1", "Amy", 0⟩,
         ⟨"items_restored", none, "u1", "Amy", 1⟩], none, 0⟩).2 = "List updated"
    ∧ ActorActions.addEvent ⟨[], [], [], [], []⟩ ⟨"items_cleared", none, "u1", "Amy", 0⟩
        = ⟨[], [], [], [], ["item"]⟩ := by
  have h := updated_bucket_not_rendered
    ⟨"L1", "Groceries",
      [⟨"items_cleared", none, "u1", "Amy", 0⟩,
       ⟨"items_restored", none, "u1", "Amy", 1⟩], none, 0⟩
    (by decide) (by decide)
  refine ⟨h.1, ?_⟩
  rw [h.2 ⟨[], [], [], [], []⟩ ⟨"items_cleared", none, "u1", "Amy", 0⟩ (by decide)]
  decide

/-! ## Broadcaster lemmas -/

theorem lookupKey_append_singleton_self {α : Type} (l : List (String × α)) (k : String)
    (v : α) (h : lookupKey l k = none) : lookupKey (l ++ [(k, v)]) k = some v := by
  induction l with
  | nil => simp [lookupKey_cons]
  | cons p rest ih =>
      obtain ⟨a, b⟩ := p
      rw [lookupKey_cons] at h
      by_cases hak : a = k
      · rw [if_pos hak] at h
        exact absurd h (by simp)
      · rw [if_neg hak] at h
        rw [List.cons_append, lookupKey_cons, if_neg hak, ih h]

/-- C8 (publish fan-out): `publish e` touches no list other than
`e.list_id` and neither adds nor removes any mailbox; every mailbox of
`e.list_id` below capacity receives `e` appended at the back of its
queue, and every mailbox at capacity is left exactly as it was (the
event is dropped for that subscriber only).  The operation is a total
function — it cannot block or raise on a full mailbox. -/
theorem publish_fanout (e : ListEvent) (reg : Registry) :
    (∀ l, l ≠ e.list_id → lookupKey (publish e reg) l = lookupKey reg l)
    ∧ (∀ l, subscriberCount (publish e reg) l = subscriberCount reg l)
    ∧ (∀ ms, lookupKey reg e.list_id = some ms →
        lookupKey (publish e reg) e.list_id = some (ms.map (offerEvent e)))
    ∧ (∀ ms m, lookupKey reg e.list_id = some ms → m ∈ ms →
        m.msgs.length < SUBSCRIBER_QUEUE_SIZE →
        { m with msgs := m.msgs ++ [e] } ∈ (lookupKey (publish e reg) e.list_id).getD [])
    ∧ (∀ ms m, lookupKey reg e.list_id = some ms → m ∈ ms →
        ¬ m.msgs.length < SUBSCRIBER_QUEUE_SIZE →
        m ∈ (lookupKey (publish e reg) e.list_id).getD []) := by
  have hoth : ∀ l, l ≠ e.list_id → lookupKey (publish e reg) l = lookupKey reg l := by
    intro l hl
    simp only [publish]
    cases hx : lookupKey reg e.list_id with
    | none => rfl
    | some ms => exact lookupKey_setKey_ne _ _ hl
  have hself : ∀ ms, lookupKey reg e.list_id = some ms →
      lookupKey (publish e reg) e.list_id = some (ms.map (offerEvent e)) := by
    intro ms hms
    simp only [publish, hms]
    exact lookupKey_setKey_self _ _ _ (by rw [hms]; rfl)
  refine ⟨hoth, ?_, hself, ?_, ?_⟩
  · intro l
    by_cases hl : l = e.list_id
    · subst hl
      cases hx : lookupKey reg e.list_id with
      | none => simp only [publish, hx]
      | some ms => simp [subscriberCount, hself ms hx, hx]
    · simp [subscriberCount, hoth l hl]
  · intro ms m hms hm hlt
    rw [hself ms hms]
    exact List.mem_map.mpr ⟨m, hm, by simp [offerEvent, hlt]⟩
  · intro ms m hms hm hfull
    rw [hself ms hms]
    exact List.mem_map.mpr ⟨m, hm, by simp [offerEvent, hfull]⟩

/-- Witness for C8: on a list with one empty and one full mailbox, the
empty one receives the event, the full one is untouched, another list's
registry entry is unchanged, and no mailbox appears or disappears. -/
theorem publish_fanout_witness :
    lookupKey (publish ⟨"item_created", "L1", none, some "Milk", some "u1", some "Amy", "t"⟩
        [("L1", [⟨0, []⟩,
          ⟨1, List.replicate 100 ⟨"item_created", "L1", none, none, none, none, "t0"⟩⟩]),
         ("L2", [⟨2, []⟩])]) "L2" = some [⟨2, []⟩]
    ∧ (⟨0, [⟨"item_created", "L1", none, some "Milk", some "u1", some "Amy", "t"⟩]⟩ : Mailbox)
        ∈ (lookupKey (publish ⟨"item_created", "L1", none, some "Milk", some "u1", some "Amy", "t"⟩
            [("L1", [⟨0, []⟩,
              ⟨1, List.replicate 100 ⟨"item_created", "L1", none, none, none, none, "t0"⟩⟩]),
             ("L2", [⟨2, []⟩])]) "L1").getD []
    ∧ (⟨1, List.replicate 100 ⟨"item_created", "L1", none, none, none, none, "t0"⟩⟩ : Mailbox)
        ∈ (lookupKey (publish ⟨"item_created", "L1", none, some "Milk", some "u1", some "Amy", "t"⟩
            [("L1", [⟨0, []⟩,
              ⟨1, List.replicate 100 ⟨"item_created", "L1", none, none, none, none, "t0"⟩⟩]),
             ("L2", [⟨2, []⟩])]) "L1").getD []
    ∧ subscriberCount (publish ⟨"item_created", "L1", none, some "Milk", some "u1", some "Amy", "t"⟩
        [("L1", [⟨0, []⟩,
          ⟨1, List.replicate 100 ⟨"item_created", "L1", none, none, none, none, "t0"⟩⟩]),
         ("L2", [⟨2, []⟩])]) "L1" = 2 := by
  refine ⟨?_, ?_, ?_, ?_⟩
  · rw [(publish_fanout ⟨"item_created", "L1", none, some "Milk", some "u1", some "Amy", "t"⟩
        [("L1", [⟨0, []⟩,
          ⟨1, List.replicate 100 ⟨"item_created", "L1", none, none, none, none, "t0"⟩⟩]),
         ("L2", [⟨2, []⟩])]).1 "L2" (by decide)]
    decide
  · exact (publish_fanout ⟨"item_created", "L1", none, some "Milk", some "u1", some "Amy", "t"⟩
        [("L1", [⟨0, []⟩,
          ⟨1, List.replicate 100 ⟨"item_created", "L1", none, none, none, none, "t0"⟩⟩]),
         ("L2", [⟨2, []⟩])]).2.2.2.1
      [⟨0, []⟩, ⟨1, List.replicate 100 ⟨"item_created", "L1", none, none, none, none, "t0"⟩⟩]
      ⟨0, []⟩ (by decide) (by decide) (by decide)
  · exact (publish_fanout ⟨"item_created", "L1", none, some "Milk", some "u1", some "Amy", "t"⟩
        [("L1", [⟨0, []⟩,
          ⟨1, List.replicate 100 ⟨"item_created", "L1", none, none, none, none, "t0"⟩⟩]),
         ("L2", [⟨2, []⟩])]).2.2.2.2
      [⟨0, []⟩, ⟨1, List.replicate 100 ⟨"item_created", "L1", none, none, none, none, "t0"⟩⟩]
      ⟨1, List.replicate 100 ⟨"item_created", "L1", none, none, none, none, "t0"⟩⟩
      (by decide) (by decide) (by decide)
  · rw [(publish_fanout ⟨"item_created", "L1", none, some "Milk", some "u1", some "Amy", "t"⟩
        [("L1", [⟨0, []⟩,
          ⟨1, List.replicate 100 ⟨"item_created", "L1", none, none, none, none, "t0"⟩⟩]),
         ("L2", [⟨2, []⟩])]).2.1 "L1"]
    decide

/-- A filter that excludes an id no mailbox carries keeps the set
intact. -/
theorem filter_id_ne_eq_self (ms : List Mailbox) (mid : Nat)
    (h : ∀ m ∈ ms, m.id ≠ mid) : ms.filter (fun m => m.id ≠ mid) = ms := by
  induction ms with
  | nil => rfl
  | cons m rest ih =>
      rw [List.filter_cons]
      have : (decide (m.id ≠ mid)) = true := by
        simp [h m (List.mem_cons_self _ _)]
      rw [this, if_pos rfl]
      rw [ih (fun m' hm' => h m' (List.mem_cons_of_mem _ hm'))]

/-- Discarding a present mailbox id from a duplicate-free set removes
exactly one element. -/
theorem length_filter_discard_id (ms : List Mailbox) (mid : Nat) (m0 : Mailbox)
    (hm : m0 ∈ ms) (hid : m0.id = mid) (hnodup : (ms.map Mailbox.id).Nodup) :
    (ms.filter (fun m => m.id ≠ mid)).length = ms.length - 1 := by
  induction ms with
  | nil => cases hm
  | cons m rest ih =>
      rw [List.map_cons, List.nodup_cons] at hnodup
      rw [List.filter_cons]
      by_cases hmid : m.id = mid
      · have hpred : (decide (m.id ≠ mid)) = false := by simp [hmid]
        rw [hpred]
        have hrest : ∀ m' ∈ rest, m'.id ≠ mid := by
          intro m' hm' h'
          exact hnodup.1 (by rw [hmid, ← h']; exact List.mem_map_of_mem _ hm')
        rw [if_neg (by simp), filter_id_ne_eq_self rest mid hrest]
        simp
      · have hpred : (decide (m.id ≠ mid)) = true := by simp [hmid]
        rw [hpred, if_pos rfl]
        have hm0 : m0 ∈ rest := by
          rcases List.mem_cons.mp hm with h0 | h0
          · exact absurd (h0 ▸ hid) hmid
          · exact h0
        have hlen : 0 < rest.length := List.length_pos.mpr (fun h => by
          rw [h] at hm0; cases hm0)
        rw [List.length_cons, List.length_cons, ih hm0 hnodup.2]
        omega

/-- The observable count after the `finally:` cleanup block. -/
theorem subscribeCleanup_count (reg : Registry) (L : String) (mid : Nat)
    (ms : List Mailbox) (hl : lookupKey reg L = some ms) :
    subscriberCount (subscribeCleanup reg L mid) L
      = (ms.filter (fun m => m.id ≠ mid)).length := by
  simp only [subscribeCleanup, hl]
  by_cases hemp : (ms.filter (fun m => m.id ≠ mid)).isEmpty
  · rw [if_pos hemp]
    have h0 : ms.filter (fun m => m.id ≠ mid) = [] := by
      cases h : ms.filter (fun m => m.id ≠ mid)
      · rfl
      · rw [h] at hemp; simp [List.isEmpty] at hemp
    rw [h0]
    simp [subscriberCount, lookupKey_eraseKey_self]
  · rw [if_neg hemp]
    simp [subscriberCount, lookupKey_setKey_self _ _ _ (by rw [hl]; rfl)]

/-- C9 (guaranteed subscriber cleanup): running the `finally:`
cleanup for a registered mailbox id (ids duplicate-free, as Python
object identities in a set are) decreases `subscriber_count` of that
list by exactly one; a full subscribe/cleanup cycle with a fresh id
restores every list's count; and on a previously empty list the cycle
restores the registry itself — no mailbox leaks. -/
theorem subscriber_cleanup (reg : Registry) (L : String) (mid : Nat) :
    (∀ m0, m0 ∈ (lookupKey reg L).getD [] → m0.id = mid →
        (((lookupKey reg L).getD []).map Mailbox.id).Nodup →
        subscriberCount (subscribeCleanup reg L mid) L = subscriberCount reg L - 1)
    ∧ (mid ∉ ((lookupKey reg L).getD []).map Mailbox.id →
        ∀ l, subscriberCount (subscribeCleanup (subscribeAdd reg L mid) L mid) l
            = subscriberCount reg l)
    ∧ (lookupKey reg L = none →
        subscribeCleanup (subscribeAdd reg L mid) L mid = reg) := by
  have hcycle_none : lookupKey reg L = none →
      subscribeCleanup (subscribeAdd reg L mid) L mid = reg := by
    intro hl
    simp only [subscribeAdd, hl]
    have hl' : lookupKey (reg ++ [(L, [(⟨mid, []⟩ : Mailbox)])]) L
        = some [(⟨mid, []⟩ : Mailbox)] :=
      lookupKey_append_singleton_self _ _ _ hl
    simp only [subscribeCleanup, hl']
    rw [if_pos (by simp)]
    show eraseKey (reg ++ [(L, [(⟨mid, []⟩ : Mailbox)])]) L = reg
    have : eraseKey (reg ++ [(L, [(⟨mid, []⟩ : Mailbox)])]) L
        = eraseKey reg L ++ eraseKey [(L, [(⟨mid, []⟩ : Mailbox)])] L := by
      simp [eraseKey, List.filter_append]
    rw [this, eraseKey_of_lookup_none reg L hl]
    simp [eraseKey]
  refine ⟨?_, ?_, hcycle_none⟩
  · intro m0 hm0 hid hnodup
    cases hl : lookupKey reg L with
    | none => rw [hl] at hm0; cases hm0
    | some ms =>
        rw [hl] at hm0 hnodup
        rw [subscribeCleanup_count reg L mid ms hl,
          length_filter_discard_id ms mid m0 hm0 hid hnodup]
        simp [subscriberCount, hl]
  · intro hfresh l
    cases hl : lookupKey reg L with
    | none =>
        rw [hcycle_none hl]
    | some ms =>
        rw [hl] at hfresh
        have hfresh' : ∀ m ∈ ms, m.id ≠ mid := by
          intro m hm h'
          exact hfresh (h' ▸ List.mem_map_of_mem _ hm)
        simp only [subscribeAdd, hl]
        have hset : lookupKey (setKey reg L (ms ++ [(⟨mid, []⟩ : Mailbox)])) L
            = some (ms ++ [(⟨mid, []⟩ : Mailbox)]) :=
          lookupKey_setKey_self _ _ _ (by rw [hl]; rfl)
        simp only [subscribeCleanup, hset]
        have hfilter : (ms ++ [(⟨mid, []⟩ : Mailbox)]).filter (fun m => m.id ≠ mid)
            = ms := by
          rw [List.filter_append, filter_id_ne_eq_self ms mid hfresh']
          simp
        rw [hfilter]
        by_cases hl' : l = L
        · subst hl'
          by_cases hemp : ms.isEmpty
          · rw [if_pos hemp]
            have hms : ms = [] := by
              cases h : ms
              · rfl
              · rw [h] at hemp; simp [List.isEmpty] at hemp
            simp [subscriberCount, lookupKey_eraseKey_self, hl, hms]
          · rw [if_neg hemp]
            have : lookupKey (setKey (setKey reg l (ms ++ [(⟨mid, []⟩ : Mailbox)])) l ms) l
                = some ms :=
              lookupKey_setKey_self _ _ _ (by rw [hset]; rfl)
            simp [subscriberCount, this, hl]
        · by_cases hemp : ms.isEmpty
          · rw [if_pos hemp]
            simp [subscriberCount, lookupKey_eraseKey_ne _ hl',
              lookupKey_setKey_ne _ _ hl']
          · rw [if_neg hemp]
            simp [subscriberCount, lookupKey_setKey_ne _ _ hl']

/-- Witness for C9: discarding mailbox 1 from a two-subscriber list
leaves one subscriber, and an add/cleanup cycle on a fresh list leaves
the registry exactly as it was. -/
theorem subscriber_cleanup_witness :
    subscriberCount (subscribeCleanup [("L1", [⟨0, []⟩, ⟨1, []⟩])] "L1" 1) "L1" = 1
    ∧ subscribeCleanup (subscribeAdd [("L1", [⟨0, []⟩, ⟨1, []⟩])] "L9" 7) "L9" 7
        = [("L1", [⟨0, []⟩, ⟨1, []⟩])] := by
  refine ⟨?_, ?_⟩
  · rw [(subscriber_cleanup [("L1", [⟨0, []⟩, ⟨1, []⟩])] "L1" 1).1
      ⟨1, []⟩ (by decide) (by decide) (by decide)]
    decide
  · exact (subscriber_cleanup [("L1", [⟨0, []⟩, ⟨1, []⟩])] "L9" 7).2.2 (by decide)

end FamilyList

